import Mathlib

/-!
Verification of the ReviewSift review-ingestion-and-summarization pipeline.

The server (an Express app) exposes `GET /api/reviews`, which paginates a
storefront's review endpoint, filters reviews by language, summarizes them
either heuristically or through a generative-AI model, and returns a JSON
response.  This file gives a shallow embedding of that pipeline:

* JavaScript string primitives (trim, toLowerCase, slice, split) are
  modelled character-exactly on `List Char` for the ASCII range.
* JavaScript numbers are modelled as `ℚ` (exact arithmetic); `Math.round`
  is floor (x + 1/2), which agrees with JS on every input.
* `JSON.parse` is modelled by an executable recursive-descent JSON parser
  (`parseJson`); parse failure (a thrown exception in JS) is `none`.
* The upstream storefront is an oracle `up : String → UpResult` mapping a
  pagination cursor to either an HTTP-level failure (anything that makes
  `fetchJson` throw) or a JSON page body.
* The generative model is an oracle `gen : Nat → Option String` from the
  index of the `generateContent` call to the returned text (`none` models
  a thrown exception).
* The unbounded `while` loop of the route handler is modelled with
  explicit fuel; `LoopResult.fuelOut` marks fuel exhaustion, so
  "the loop terminates" is "some fuel yields a result other than fuelOut".
-/

/- ------------------------------------------------------------------
   JavaScript string primitives, modelled on `List Char`.
   ------------------------------------------------------------------ -/

/-- The backtick character (code 96), kept out of source text. -/
def backtickChar : Char := Char.ofNat 96

/-- The left-brace character (code 123). -/
def lbraceChar : Char := Char.ofNat 123

/-- The right-brace character (code 125). -/
def rbraceChar : Char := Char.ofNat 125

/-- The double-quote character (code 34). -/
def dquoteChar : Char := Char.ofNat 34

/-- JS `\s` whitespace, restricted to the ASCII range used by this app. -/
def jsWs (c : Char) : Bool :=
  c = ' ' || c = '\t' || c = '\n' || c = '\r' || c = Char.ofNat 11 || c = Char.ofNat 12

/-- ASCII lowercasing of a character, as done by JS `toLowerCase` on ASCII. -/
def charLower (c : Char) : Char :=
  if 'A' ≤ c ∧ c ≤ 'Z' then Char.ofNat (c.toNat + 32) else c

/-- Trim `\s` from both ends of a character list (JS `String.prototype.trim`). -/
def trimChars (l : List Char) : List Char :=
  ((l.dropWhile jsWs).reverse.dropWhile jsWs).reverse

/-- JS `trim` lifted to `String`. -/
def jsTrimStr (s : String) : String := String.mk (trimChars s.data)

/-- JS `toLowerCase` lifted to `String` (ASCII). -/
def jsLowerStr (s : String) : String := String.mk (s.data.map charLower)

/-- JS `Math.round` on exact rationals: floor (q + 1/2). -/
def jsRound (q : ℚ) : ℤ := ⌊q + 1 / 2⌋

/-- JS `arr.slice(0, e)` where `e` may be negative (counted from the end). -/
def jsSlice {α : Type} (l : List α) (e : ℤ) : List α :=
  if e < 0 then l.take ((l.length : ℤ) + e).toNat else l.take e.toNat

/-- Index search from a running offset. -/
def idxOfCharAux (c : Char) : Nat → List Char → Option Nat
  | _, [] => none
  | i, x :: xs => if x = c then some i else idxOfCharAux c (i + 1) xs

/-- Index of the first occurrence of a character (JS `indexOf`), if any. -/
def idxOfChar (c : Char) (l : List Char) : Option Nat :=
  idxOfCharAux c 0 l

/-- Index of the last occurrence of a character (JS `lastIndexOf`), if any. -/
def lastIdxOfChar (c : Char) (l : List Char) : Option Nat :=
  (idxOfChar c l.reverse).map (fun i => l.length - 1 - i)

/- ------------------------------------------------------------------
   JSON values and a recursive-descent model of `JSON.parse`.
   ------------------------------------------------------------------ -/

/-- JSON values.  Numbers are exact rationals. -/
inductive JVal where
  | null
  | bool (b : Bool)
  | num (q : ℚ)
  | str (s : String)
  | arr (elems : List JVal)
  | obj (fields : List (String × JVal))

/-- JSON insignificant whitespace (RFC 8259: space, tab, LF, CR). -/
def jsonWs (c : Char) : Bool :=
  c = ' ' || c = '\t' || c = '\n' || c = '\r'

/-- Skip JSON whitespace. -/
def skipWs (l : List Char) : List Char := l.dropWhile jsonWs

/-- Value of a decimal digit list, most significant first. -/
def digitsToNat (ds : List Char) : Nat :=
  ds.foldl (fun a c => a * 10 + (c.toNat - 48)) 0

/-- Value of a hex digit, if the character is one. -/
def hexVal (c : Char) : Option Nat :=
  if '0' ≤ c ∧ c ≤ '9' then some (c.toNat - 48)
  else if 'a' ≤ c ∧ c ≤ 'f' then some (c.toNat - 87)
  else if 'A' ≤ c ∧ c ≤ 'F' then some (c.toNat - 55)
  else none

/-- Single-character JSON string escapes. -/
def escSimple (c : Char) : Option Char :=
  if c = dquoteChar then some dquoteChar
  else if c = '\\' then some '\\'
  else if c = '/' then some '/'
  else if c = 'b' then some (Char.ofNat 8)
  else if c = 'f' then some (Char.ofNat 12)
  else if c = 'n' then some '\n'
  else if c = 'r' then some '\r'
  else if c = 't' then some '\t'
  else none

/-- Parse the body of a JSON string (opening quote already consumed). -/
def parseStrAux : Nat → List Char → List Char → Option (String × List Char)
  | 0, _, _ => none
  | _ + 1, _, [] => none
  | fuel + 1, acc, c :: cs =>
    if c = dquoteChar then some (String.mk acc.reverse, cs)
    else if c = '\\' then
      match cs with
      | [] => none
      | e :: cs2 =>
        match escSimple e with
        | some ec => parseStrAux fuel (ec :: acc) cs2
        | none =>
          if e = 'u' then
            match cs2 with
            | h1 :: h2 :: h3 :: h4 :: cs3 =>
              match hexVal h1, hexVal h2, hexVal h3, hexVal h4 with
              | some a, some b, some c4, some d =>
                parseStrAux fuel (Char.ofNat (a * 4096 + b * 256 + c4 * 16 + d) :: acc) cs3
              | _, _, _, _ => none
            | _ => none
          else none
    else parseStrAux fuel (c :: acc) cs

/-- Parse an optional JSON fraction part; `none` in the pair means absent. -/
def parseFracPart : List Char → Option (Option ℚ × List Char)
  | [] => some (none, [])
  | c :: cs =>
    if c = '.' then
      let p := cs.span Char.isDigit
      if p.1.isEmpty then none
      else some (some ((digitsToNat p.1 : ℚ) / (10 : ℚ) ^ p.1.length), p.2)
    else some (none, c :: cs)

/-- Parse an optional JSON exponent part; `none` in the pair means absent. -/
def parseExpPart : List Char → Option (Option ℤ × List Char)
  | [] => some (none, [])
  | c :: cs =>
    if c = 'e' ∨ c = 'E' then
      let sp : ℤ × List Char :=
        match cs with
        | [] => (1, [])
        | s :: r => if s = '+' then (1, r) else if s = '-' then (-1, r) else (1, cs)
      let p := sp.2.span Char.isDigit
      if p.1.isEmpty then none
      else some (some (sp.1 * (digitsToNat p.1 : ℤ)), p.2)
    else some (none, c :: cs)

/-- Parse a JSON number (sign, integer part, fraction, exponent).  A plain
integer is returned as a cast of its digit value; other shapes combine the
parts arithmetically (the value is the same either way). -/
def parseNumber (cs : List Char) : Option (ℚ × List Char) :=
  let sp : Bool × List Char :=
    match cs with
    | [] => (false, [])
    | c :: rest => if c = '-' then (true, rest) else (false, cs)
  let p := sp.2.span Char.isDigit
  if p.1.isEmpty then none
  else if 1 < p.1.length ∧ p.1.headD ' ' = '0' then none
  else
    match parseFracPart p.2 with
    | none => none
    | some (frOpt, r1) =>
      match parseExpPart r1 with
      | none => none
      | some (exOpt, r2) =>
        let v : ℚ :=
          match frOpt, exOpt with
          | none, none => (digitsToNat p.1 : ℚ)
          | f, e => ((digitsToNat p.1 : ℚ) + f.getD 0) * (10 : ℚ) ^ e.getD 0
        some (if sp.1 then -v else v, r2)

mutual

/-- Parse one JSON value; fuel bounds the recursion depth. -/
def parseValAux : Nat → List Char → Option (JVal × List Char)
  | 0, _ => none
  | fuel + 1, cs =>
    match skipWs cs with
    | [] => none
    | c :: rest =>
      if c = dquoteChar then
        match parseStrAux fuel [] rest with
        | some (s, r) => some (.str s, r)
        | none => none
      else if c = 't' then
        if rest.take 3 = ['r', 'u', 'e'] then some (.bool true, rest.drop 3) else none
      else if c = 'f' then
        if rest.take 4 = ['a', 'l', 's', 'e'] then some (.bool false, rest.drop 4) else none
      else if c = 'n' then
        if rest.take 3 = ['u', 'l', 'l'] then some (.null, rest.drop 3) else none
      else if c = '[' then
        match skipWs rest with
        | c2 :: r2 => if c2 = ']' then some (.arr [], r2) else parseArrAux fuel (skipWs rest) []
        | [] => none
      else if c = lbraceChar then
        match skipWs rest with
        | c2 :: r2 => if c2 = rbraceChar then some (.obj [], r2) else parseObjAux fuel (skipWs rest) []
        | [] => none
      else
        match parseNumber (c :: rest) with
        | some (q, r) => some (.num q, r)
        | none => none

/-- Parse the elements of a JSON array, first element pending. -/
def parseArrAux : Nat → List Char → List JVal → Option (JVal × List Char)
  | 0, _, _ => none
  | fuel + 1, cs, acc =>
    match parseValAux fuel cs with
    | none => none
    | some (v, r) =>
      match skipWs r with
      | [] => none
      | c :: r2 =>
        if c = ',' then parseArrAux fuel r2 (v :: acc)
        else if c = ']' then some (.arr (v :: acc).reverse, r2)
        else none

/-- Parse the members of a JSON object, first member pending. -/
def parseObjAux : Nat → List Char → List (String × JVal) → Option (JVal × List Char)
  | 0, _, _ => none
  | fuel + 1, cs, acc =>
    match skipWs cs with
    | [] => none
    | c :: rest =>
      if c = dquoteChar then
        match parseStrAux fuel [] rest with
        | none => none
        | some (k, r1) =>
          match skipWs r1 with
          | [] => none
          | c2 :: r2 =>
            if c2 = ':' then
              match parseValAux fuel r2 with
              | none => none
              | some (v, r3) =>
                match skipWs r3 with
                | [] => none
                | c3 :: r4 =>
                  if c3 = ',' then parseObjAux fuel r4 ((k, v) :: acc)
                  else if c3 = rbraceChar then some (.obj ((k, v) :: acc).reverse, r4)
                  else none
            else none
      else none

end

/-- Model of `JSON.parse`: parse a whole string as a single JSON value,
allowing only trailing whitespace; `none` models a thrown `SyntaxError`. -/
def parseJson (s : String) : Option JVal :=
  match parseValAux (4 * s.data.length + 16) s.data with
  | some (v, rest) => if (skipWs rest).isEmpty then some v else none
  | none => none

/-- JS truthiness of a parsed JSON value (`if (json) ...`). -/
def jTruthy : JVal → Bool
  | .null => false
  | .bool b => b
  | .num q => decide (q ≠ 0)
  | .str s => decide (s ≠ "")
  | .arr _ => true
  | .obj _ => true

/-- Look up a key of a JSON object; on duplicate keys the last wins,
as in `JSON.parse`.  Non-objects have no keys. -/
def jLookup (j : JVal) (k : String) : Option JVal :=
  match j with
  | .obj fields => fields.foldl (fun r p => if p.1 = k then some p.2 else r) none
  | _ => none

/- ------------------------------------------------------------------
   Data model: reviews as delivered by the storefront API.
   ------------------------------------------------------------------ -/

/-- One storefront review, with the fields the server reads.
`author_playtime_forever` is `author.playtime_forever` (minutes); the
server's `|| 0` default for a missing author is modelled by the field
always being present. -/
structure Review where
  voted_up : Bool
  votes_up : Nat
  weighted_vote_score : String
  review : String
  language : String
  author_playtime_forever : Nat
deriving DecidableEq

/-- `verdictFromPositivity` from the server: the 8-bucket threshold table. -/
def verdictFromPositivity (p : ℚ) : String :=
  if p ≥ 0.85 then "Overwhelmingly Positive"
  else if p ≥ 0.75 then "Very Positive"
  else if p ≥ 0.65 then "Mostly Positive"
  else if p ≥ 0.55 then "Somewhat Positive"
  else if p ≥ 0.45 then "Mixed"
  else if p ≥ 0.35 then "Somewhat Negative"
  else if p ≥ 0.25 then "Mostly Negative"
  else "Very Negative"

/-- Does this position start a match of the URL pattern `https?:\/\/\S+`?
If so, return the rest of the input after the match. -/
def urlMatchRest (l : List Char) : Option (List Char) :=
  let afterHttp : Option (List Char) :=
    match l with
    | 'h' :: 't' :: 't' :: 'p' :: rest =>
      match rest with
      | 's' :: rest2 => some rest2
      | _ => some rest
    | _ => none
  match afterHttp with
  | none => none
  | some r =>
    match r with
    | ':' :: '/' :: '/' :: r2 =>
      let p := r2.span (fun c => ¬ jsWs c)
      if p.1.isEmpty then none else some p.2
    | _ => none

/-- Replace every URL match with a single space (`.replace(/https?:\/\/\S+/g, " ")`).
Fuel is the input length; every step consumes at least one character. -/
def stripUrlsAux : Nat → List Char → List Char
  | 0, l => l
  | _ + 1, [] => []
  | fuel + 1, c :: cs =>
    match urlMatchRest (c :: cs) with
    | some rest => ' ' :: stripUrlsAux fuel rest
    | none => c :: stripUrlsAux fuel cs

/-- URL stripping at the list level. -/
def stripUrls (l : List Char) : List Char := stripUrlsAux l.length l

/-- Is the character kept verbatim by `.replace(/[^a-z0-9\s]/g, " ")`? -/
def tokenChar (c : Char) : Bool :=
  ('a' ≤ c && c ≤ 'z') || ('0' ≤ c && c ≤ '9') || jsWs c

/-- Split on runs of whitespace (`.split(/\s+/)`), dropping empty pieces.
(The JS split can produce one leading empty string, which the length
filter in `tokenize` discards; dropping it here is equivalent.) -/
def splitWsAux : Nat → List Char → List (List Char)
  | 0, _ => []
  | _ + 1, [] => []
  | fuel + 1, c :: cs =>
    if jsWs c then splitWsAux fuel cs
    else
      let p := (c :: cs).span (fun d => ¬ jsWs d)
      p.1 :: splitWsAux fuel p.2

/-- Whitespace splitting at the list level. -/
def splitWs (l : List Char) : List (List Char) := splitWsAux l.length l

/-- `tokenize` from the server: lowercase, strip URLs, keep only
`[a-z0-9\s]`, split on whitespace, keep tokens of length 3 to 24. -/
def tokenize (text : String) : List String :=
  let lowered := text.data.map charLower
  let noUrls := stripUrls lowered
  let cleaned := noUrls.map (fun c => if tokenChar c then c else ' ')
  ((splitWs cleaned).filter (fun w => 3 ≤ w.length ∧ w.length ≤ 24)).map String.mk

/-- The stop-word set of `topTermsFromReviews`. -/
def stopWords : List String :=
  ["this", "that", "with", "have", "game", "play", "just", "like", "you", "your", "for", "and", "the", "are",
   "but", "not", "was", "its", "they", "them", "from", "out", "get", "too", "very", "all", "can", "cant",
   "still", "really", "more", "when", "what", "been", "one", "time", "much", "after", "before", "into"]

/-- Bump a word's count in an insertion-ordered frequency list, modelling
a JS `Map`: an existing key keeps its position, a new key is appended. -/
def bumpFreq (m : List (String × Nat)) (w : String) : List (String × Nat) :=
  if m.any (fun p => p.1 = w) then
    m.map (fun p => if p.1 = w then (p.1, p.2 + 1) else p)
  else m ++ [(w, 1)]

/-- Stable insertion of an entry into a count-descending list: it goes
before the first entry with a strictly smaller count, hence after all
earlier entries with an equal count. -/
def insertByCount (x : String × Nat) : List (String × Nat) → List (String × Nat)
  | [] => [x]
  | y :: ys => if y.2 < x.2 then x :: y :: ys else y :: insertByCount x ys

/-- Stable descending sort by count, modelling the JS stable
`Array.prototype.sort` with comparator `(a, b) => b[1] - a[1]`. -/
def sortByCountDesc (l : List (String × Nat)) : List (String × Nat) :=
  l.foldl (fun acc x => insertByCount x acc) []

/-- `topTermsFromReviews` from the server: token frequencies over all
review bodies minus stop words, sorted by count descending (stable),
truncated to `limit`, keys only. -/
def topTermsFromReviews (reviews : List Review) (limit : Nat) : List String :=
  let freq := reviews.foldl
    (fun m r => (tokenize r.review).foldl
      (fun m2 w => if stopWords.contains w then m2 else bumpFreq m2 w) m)
    []
  ((sortByCountDesc freq).take limit).map (fun p => p.1)

/-- Keep the first occurrence of each element (JS `[...new Set(xs)]`). -/
def dedupKeepFirst (l : List String) : List String :=
  l.foldl (fun acc x => if acc.contains x then acc else acc ++ [x]) []

/-- The final summary object.  `positivity` and `playtimeAvgHrs` are
`Option ℚ` because the empty-review sentinel sets them to JSON null. -/
structure FinalSummary where
  overall : String
  verdict : String
  positivity : Option ℚ
  playtimeAvgHrs : Option ℚ
  pros : List String
  cons : List String
  themes : List String
  topKeywords : List String
deriving DecidableEq

/-- `heuristicSummary` from the server. -/
def heuristicSummary (all : List Review) : FinalSummary :=
  let posCount := (all.filter (fun r => r.voted_up)).length
  let positivity : ℚ := if all.length ≠ 0 then (posCount : ℚ) / (all.length : ℚ) else 0
  let avgPlaytime : ℚ :=
    if all.length ≠ 0 then
      ((all.foldl (fun acc r => acc + r.author_playtime_forever) 0 : ℚ) / (all.length : ℚ)) / 60
    else 0
  let positives := all.filter (fun r => r.voted_up)
  let negatives := all.filter (fun r => ¬ r.voted_up)
  let posKeywords := topTermsFromReviews positives 8
  let negKeywords := topTermsFromReviews negatives 8
  let topKeywords := topTermsFromReviews all 18
  let pros := (posKeywords.take 6).map (fun k => "Players frequently mention: " ++ k)
  let cons := (negKeywords.take 6).map (fun k => "Common complaint around: " ++ k)
  let themes := dedupKeepFirst (topKeywords.take 10)
  { overall := toString (jsRound (positivity * 100)) ++ "% positive (" ++
      toString posCount ++ "/" ++ toString all.length ++ ")"
  , verdict := verdictFromPositivity positivity
  , positivity := some positivity
  , playtimeAvgHrs := some ((jsRound (avgPlaytime * 10) : ℚ) / 10)
  , pros := pros
  , cons := cons
  , themes := themes
  , topKeywords := topKeywords }

/-- The sentinel summary returned when no reviews match. -/
def sentinelSummary : FinalSummary :=
  { overall := "No reviews returned by Steam for this language."
  , verdict := "Unknown"
  , positivity := none
  , playtimeAvgHrs := none
  , pros := []
  , cons := []
  , themes := []
  , topKeywords := [] }

/- ------------------------------------------------------------------
   `safeJson`: the defensive AI-output parser.
   ------------------------------------------------------------------ -/

/-- Strip a leading markdown fence (`.replace(/^```(?:json)?/i, "")`). -/
def stripFenceStart (l : List Char) : List Char :=
  if l.take 3 = [backtickChar, backtickChar, backtickChar] then
    let rest := l.drop 3
    if (rest.take 4).map charLower = ['j', 's', 'o', 'n'] then rest.drop 4 else rest
  else l

/-- Strip a trailing markdown fence (`.replace(/```$/i, "")`). -/
def stripFenceEnd (l : List Char) : List Char :=
  if l.reverse.take 3 = [backtickChar, backtickChar, backtickChar] then
    (l.reverse.drop 3).reverse
  else l

/-- Extract the outermost brace span (`indexOf("{")` to `lastIndexOf("}")`),
falling back to the whole text when the span is absent or degenerate. -/
def braceSlice (l : List Char) : List Char :=
  match idxOfChar lbraceChar l, lastIdxOfChar rbraceChar l with
  | some f, some la => if f < la then (l.drop f).take (la + 1 - f) else l
  | _, _ => l

/-- The exact text `safeJson` hands to `JSON.parse`: trim, strip fences,
trim again, slice to the outermost braces. -/
def slicedOf (txt : String) : String :=
  let raw := trimChars txt.data
  let noFences := trimChars (stripFenceEnd (stripFenceStart raw))
  String.mk (braceSlice noFences)

/-- `safeJson` from the server: defensive parse of model output; `none`
models the `catch` branch returning JS `null`. -/
def safeJson (txt : String) : Option JVal :=
  parseJson (slicedOf txt)

/- ------------------------------------------------------------------
   The `/api/reviews` pagination loop.
   ------------------------------------------------------------------ -/

/-- One page body from the storefront reviews endpoint, as read by the
server: `success`, `reviews` (the `|| []` default folded in) and `cursor`
(the empty string modelling a missing/falsy cursor, as in `data.cursor ||
cursor`).  A falsy whole body (`!data`) behaves exactly like `success ≠ 1`
and is modelled by it. -/
structure PageData where
  success : ℤ
  reviews : List Review
  cursor : String
deriving DecidableEq

/-- Result of `fetchJson` on one page: either the body, or a thrown
exception (non-success HTTP status, unreachable host, invalid JSON). -/
inductive UpResult where
  | httpError (status : Nat)
  | json (d : PageData)
deriving DecidableEq

/-- The language filter applied to one raw page
(`lang === "all" ? rawChunk : rawChunk.filter(...)`). -/
def chunkOf (lang : String) (d : PageData) : List Review :=
  if lang = "all" then d.reviews
  else d.reviews.filter (fun r => jsLowerStr r.language = lang)

/-- `data.cursor || cursor`: keep the old cursor when the new one is falsy. -/
def nextCursorOf (d : PageData) (cursor : String) : String :=
  if d.cursor = "" then cursor else d.cursor

/-- Outcome of one iteration of the `while` body. -/
inductive StepOut where
  | next (cursor : String) (acc : List Review)
  | stop (acc : List Review)
  | fail
deriving DecidableEq

/-- One iteration of the pagination `while` body, for a given cursor and
accumulator: fetch the page (a throw propagates as `.fail`), break on
`success ≠ 1`, filter by language, on an empty chunk advance or stall,
otherwise accumulate and break on a stalled cursor or a short chunk. -/
def stepPage (up : String → UpResult) (lang : String) (cursor : String)
    (acc : List Review) : StepOut :=
  match up cursor with
  | .httpError _ => .fail
  | .json d =>
    if d.success ≠ 1 then .stop acc
    else
      let chunk := chunkOf lang d
      if chunk.isEmpty then
        if nextCursorOf d cursor = cursor then .stop acc
        else .next (nextCursorOf d cursor) acc
      else
        let acc2 := acc ++ chunk
        if nextCursorOf d cursor = cursor then .stop acc2
        else if chunk.length < 100 then .stop acc2
        else .next (nextCursorOf d cursor) acc2

/-- Result of running the whole loop. -/
inductive LoopResult where
  | ok (reviews : List Review)
  | err
  | fuelOut
deriving DecidableEq

/-- The pagination `while (all.length < max)` loop, with explicit fuel. -/
def runLoop (up : String → UpResult) (lang : String) (max : ℤ) :
    Nat → String → List Review → LoopResult
  | 0, _, _ => .fuelOut
  | fuel + 1, cursor, acc =>
    if (acc.length : ℤ) < max then
      match stepPage up lang cursor acc with
      | .fail => .err
      | .stop acc2 => .ok acc2
      | .next c2 acc2 => runLoop up lang max fuel c2 acc2
    else .ok acc

/-- The complete review fetch: run the loop from the sentinel cursor `"*"`
with an empty accumulator, then truncate (`all = all.slice(0, max)`). -/
def fetchReviews (up : String → UpResult) (lang : String) (max : ℤ)
    (fuel : Nat) : LoopResult :=
  match runLoop up lang max fuel "*" [] with
  | .ok all => .ok (jsSlice all max)
  | r => r

/-- The loop terminates from a given state when some fuel suffices. -/
def loopTerminates (up : String → UpResult) (lang : String) (max : ℤ)
    (cursor : String) (acc : List Review) : Prop :=
  ∃ fuel, runLoop up lang max fuel cursor acc ≠ .fuelOut

/- ------------------------------------------------------------------
   The `/api/reviews` route handler.
   ------------------------------------------------------------------ -/

/-- One entry of the `sample` array in the response. -/
structure SampleItem where
  voted_up : Bool
  votes_up : Nat
  weighted_vote_score : String
  review : String
  playtime_hours : ℤ
deriving DecidableEq

/-- Build one sample entry from a review. -/
def mkSample (r : Review) : SampleItem :=
  { voted_up := r.voted_up
  , votes_up := r.votes_up
  , weighted_vote_score := r.weighted_vote_score
  , review := r.review
  , playtime_hours := jsRound ((r.author_playtime_forever : ℚ) / 60) }

/-- The `summary` field of the response: either a structured summary
built by the server (heuristic or sentinel), or raw parsed JSON adopted
verbatim from the AI merge step. -/
inductive SummaryVal where
  | ofSummary (s : FinalSummary)
  | ofJson (j : JVal)

/-- A successful `/api/reviews` response body. -/
structure ReviewsOk where
  count : Nat
  appId : String
  lang : String
  summary : SummaryVal
  sample : List SampleItem

/-- The `/api/reviews` HTTP outcome.  `noFuel` is the fuel-model artifact
for a run whose loop did not finish within the given fuel. -/
inductive ApiResult where
  | ok (r : ReviewsOk)
  | badRequest (msg : String)
  | serverError (msg : String)
  | noFuel

/-- The allow-list of language filters. -/
def allowedLangs : List String :=
  ["english", "spanish", "schinese", "portuguese", "russian", "all"]

/-- Sanitize the `lang` query parameter: default `"english"`, trim,
lowercase, fall back to `"english"` when not in the allow-list. -/
def sanitizeLang (qLang : Option String) : String :=
  let langRaw := jsLowerStr (jsTrimStr (qLang.getD "english"))
  if allowedLangs.contains langRaw then langRaw else "english"

/-- Collapse whitespace runs to single spaces (`.replace(/\s+/g, " ")`). -/
def collapseWsAux : Nat → List Char → List Char
  | 0, l => l
  | _ + 1, [] => []
  | fuel + 1, c :: cs =>
    if jsWs c then ' ' :: collapseWsAux fuel (cs.dropWhile jsWs)
    else c :: collapseWsAux fuel cs

/-- Whitespace collapsing lifted to `String`. -/
def collapseWsStr (s : String) : String := String.mk (collapseWsAux s.data.length s.data)

/-- Render one review as a compact prompt line (`toText` in the server). -/
def toText (rv : Review) : String :=
  (("[" ++ (if rv.voted_up then "Recommended" else "Not Recommended") ++
    " | Helpful:" ++ toString rv.votes_up ++
    " | Playtime:" ++ toString (jsRound ((rv.author_playtime_forever : ℚ) / 60)) ++
    "h] ") ++ collapseWsStr rv.review).take 1400

/-- Split a list into consecutive chunks of `n` (the batching loop
`for (let i = 0; i < reviewTexts.length; i += batchSize)`). -/
def listChunks {α : Type} (n : Nat) : Nat → List α → List (List α)
  | _, [] => []
  | 0, l => [l]
  | fuel + 1, l => l.take n :: listChunks n fuel (l.drop n)

/-- Issue `count` sequential `generateContent` calls starting at index
`i`; any thrown call (`none`) aborts the whole batch stage. -/
def collectGen (gen : Nat → Option String) : Nat → Nat → Option (List String)
  | _, 0 => some []
  | i, count + 1 =>
    match gen i with
    | none => none
    | some t =>
      match collectGen gen (i + 1) count with
      | none => none
      | some ts => some (t :: ts)

/-- The AI synthesis stage (the `try` block of the route): batch the
rendered reviews, call the model once per batch, keep the truthy parsed
outputs, and if any exist issue one merge call; `some merged` means the
merged object replaces the fallback summary, `none` means the fallback is
kept (a thrown call, no usable partial output, or an unparsable / falsy
merge result). -/
def runAI (gen : Nat → Option String) (all : List Review) : Option JVal :=
  let reviewTexts := (all.map toText).take 80
  let batches := listChunks 50 reviewTexts.length reviewTexts
  match collectGen gen 0 batches.length with
  | none => none
  | some outs =>
    let parsed := (outs.filterMap safeJson).filter jTruthy
    if parsed.isEmpty then none
    else
      match gen batches.length with
      | none => none
      | some mergeTxt =>
        match safeJson mergeTxt with
        | some m => if jTruthy m then some m else none
        | none => none

/-- The `GET /api/reviews` route handler.  `num` is the parsed `num`
query parameter (the server's `parseInt(req.query.num || "200", 10)`),
`key` the raw `GOOGLE_API_KEY` environment value (`""` when unset). -/
def apiReviews (up : String → UpResult) (gen : Nat → Option String) (key : String)
    (qAppId : Option String) (num : ℤ) (qLang : Option String) (fuel : Nat) : ApiResult :=
  match qAppId with
  | none => .badRequest "Missing appId."
  | some appId =>
    if appId = "" then .badRequest "Missing appId."
    else
      let max : ℤ := min num 1000
      let lang := sanitizeLang qLang
      match fetchReviews up lang max fuel with
      | .fuelOut => .noFuel
      | .err => .serverError "Review fetch failed."
      | .ok all =>
        let sample := (all.take 12).map mkSample
        if all.isEmpty then
          .ok { count := 0, appId := appId, lang := lang
              , summary := .ofSummary sentinelSummary, sample := [] }
        else
          let fallback := heuristicSummary all
          if jsTrimStr key = "" then
            .ok { count := all.length, appId := appId, lang := lang
                , summary := .ofSummary fallback, sample := sample }
          else
            let summary := match runAI gen all with
              | some j => SummaryVal.ofJson j
              | none => SummaryVal.ofSummary fallback
            .ok { count := all.length, appId := appId, lang := lang
                , summary := summary, sample := sample }

/- ------------------------------------------------------------------
   Observers on responses (used to state properties).
   ------------------------------------------------------------------ -/

/-- The successful payload of an outcome, if any. -/
def okPart : ApiResult → Option ReviewsOk
  | .ok r => some r
  | _ => none

/-- The server-error message of an outcome, if any. -/
def errMsgOf : ApiResult → Option String
  | .serverError m => some m
  | _ => none

/-- The `positivity` field of a response summary, when it is a number. -/
def summaryPositivity : SummaryVal → Option ℚ
  | .ofSummary s => s.positivity
  | .ofJson j =>
    match jLookup j "positivity" with
    | some (.num q) => some q
    | _ => none

/-- The `verdict` field of a response summary, when it is a string. -/
def summaryVerdict : SummaryVal → Option String
  | .ofSummary s => some s.verdict
  | .ofJson j =>
    match jLookup j "verdict" with
    | some (.str s) => some s
    | _ => none

/-- The `ok` review list of a loop result, if any. -/
def LoopResult.okReviews : LoopResult → Option (List Review)
  | .ok l => some l
  | _ => none

/- ------------------------------------------------------------------
   Shared helper lemmas.
   ------------------------------------------------------------------ -/

/-- The heuristic positivity is the recommended ratio, zero when empty. -/
lemma heuristicSummary_positivity (all : List Review) :
    (heuristicSummary all).positivity =
      some (if all.length ≠ 0
            then ((all.filter (fun r => r.voted_up)).length : ℚ) / (all.length : ℚ)
            else 0) := rfl

/-- The heuristic verdict is the threshold table applied to that ratio. -/
lemma heuristicSummary_verdict (all : List Review) :
    (heuristicSummary all).verdict =
      verdictFromPositivity
        (if all.length ≠ 0
         then ((all.filter (fun r => r.voted_up)).length : ℚ) / (all.length : ℚ)
         else 0) := rfl

/-- The heuristic positivity ratio always lies in the unit interval. -/
lemma heuristicSummary_positivity_bounds (all : List Review) :
    ∃ p : ℚ, (heuristicSummary all).positivity = some p ∧ 0 ≤ p ∧ p ≤ 1 := by
  refine ⟨_, heuristicSummary_positivity all, ?_, ?_⟩
  · split_ifs with h
    · positivity
    · norm_num
  · split_ifs with h
    · rw [div_le_one (by positivity)]
      exact_mod_cast all.length_filter_le _
    · norm_num

/-- A concrete review list: 10 reviews, 7 of them recommended. -/
def tenSeven : List Review :=
  List.replicate 7 (⟨true, 0, "", "", "english", 0⟩ : Review) ++
  List.replicate 3 (⟨false, 0, "", "", "english", 0⟩ : Review)

/- ------------------------------------------------------------------
   C3: the verdict threshold table.
   ------------------------------------------------------------------ -/

/-- C3: `verdictFromPositivity` is total on ℚ (hence on [0,1]) and matches
the 8-bucket threshold table exactly at each boundary: p ≥ 0.85 is
"Overwhelmingly Positive", 0.75 ≤ p < 0.85 "Very Positive", 0.65 ≤ p <
0.75 "Mostly Positive", 0.55 ≤ p < 0.65 "Somewhat Positive", 0.45 ≤ p <
0.55 "Mixed", 0.35 ≤ p < 0.45 "Somewhat Negative", 0.25 ≤ p < 0.35
"Mostly Negative", and p < 0.25 "Very Negative". -/
theorem claim_C3_verdict_table (p : ℚ) :
    (0.85 ≤ p → verdictFromPositivity p = "Overwhelmingly Positive") ∧
    (0.75 ≤ p ∧ p < 0.85 → verdictFromPositivity p = "Very Positive") ∧
    (0.65 ≤ p ∧ p < 0.75 → verdictFromPositivity p = "Mostly Positive") ∧
    (0.55 ≤ p ∧ p < 0.65 → verdictFromPositivity p = "Somewhat Positive") ∧
    (0.45 ≤ p ∧ p < 0.55 → verdictFromPositivity p = "Mixed") ∧
    (0.35 ≤ p ∧ p < 0.45 → verdictFromPositivity p = "Somewhat Negative") ∧
    (0.25 ≤ p ∧ p < 0.35 → verdictFromPositivity p = "Mostly Negative") ∧
    (p < 0.25 → verdictFromPositivity p = "Very Negative") := by
  refine ⟨fun h => ?_, fun h => ?_, fun h => ?_, fun h => ?_, fun h => ?_,
    fun h => ?_, fun h => ?_, fun h => ?_⟩ <;>
  · first
    | (obtain ⟨h1, h2⟩ := h) | skip
    unfold verdictFromPositivity
    split_ifs <;> first | rfl | (exfalso; simp only [ge_iff_le, not_le] at *; linarith)

/-- Witness for C3 at concrete inputs in several buckets, including the
boundary p = 0.85. -/
theorem claim_C3_witness :
    verdictFromPositivity 0.85 = "Overwhelmingly Positive" ∧
    verdictFromPositivity 0.7 = "Mostly Positive" ∧
    verdictFromPositivity 0.1 = "Very Negative" :=
  ⟨(claim_C3_verdict_table 0.85).1 (by norm_num),
   (claim_C3_verdict_table 0.7).2.2.1 ⟨by norm_num, by norm_num⟩,
   (claim_C3_verdict_table 0.1).2.2.2.2.2.2.2 (by norm_num)⟩

/- ------------------------------------------------------------------
   C7: heuristic positivity (corrected: 0.7 is "Mostly Positive").
   ------------------------------------------------------------------ -/

/-- C7 (amended): the heuristic summarizer computes positivity as the
number of recommended reviews divided by the total, and 0 when the list
is empty; for 10 reviews of which 7 are recommended it yields positivity
0.7 — whose verdict under the threshold table is "Mostly Positive"
(0.7 ≥ 0.65), not "Somewhat Positive" as the original claim stated. -/
theorem claim_C7_heuristic_positivity :
    (∀ all : List Review, (heuristicSummary all).positivity =
       some (if all.length ≠ 0
             then ((all.filter (fun r => r.voted_up)).length : ℚ) / (all.length : ℚ)
             else 0)) ∧
    (∀ all : List Review, all.length = 10 →
       (all.filter (fun r => r.voted_up)).length = 7 →
       (heuristicSummary all).positivity = some (7 / 10) ∧
       (heuristicSummary all).verdict = "Mostly Positive") := by
  refine ⟨heuristicSummary_positivity, fun all h10 h7 => ⟨?_, ?_⟩⟩
  · rw [heuristicSummary_positivity, h10, h7]
    norm_num
  · rw [heuristicSummary_verdict, h10, h7]
    norm_num [verdictFromPositivity]

/-- Witness for C7 on a concrete list of 10 reviews, 7 recommended. -/
theorem claim_C7_witness :
    (heuristicSummary tenSeven).positivity = some (7 / 10) ∧
    (heuristicSummary tenSeven).verdict = "Mostly Positive" :=
  claim_C7_heuristic_positivity.2 tenSeven (by decide) (by decide)

/-- Counterexample to C7 as stated: on 10 reviews with 7 recommended the
positivity is 0.7 but the verdict is not "Somewhat Positive" (it is
"Mostly Positive", since 0.7 ≥ 0.65). -/
theorem claim_C7_counterexample :
    (heuristicSummary tenSeven).positivity = some (7 / 10) ∧
    (heuristicSummary tenSeven).verdict ≠ "Somewhat Positive" := by
  constructor
  · rw [heuristicSummary_positivity]
    norm_num [show tenSeven.length = 10 from by decide,
      show (tenSeven.filter (fun r => r.voted_up)).length = 7 from by decide]
  · rw [heuristicSummary_verdict]
    norm_num [show tenSeven.length = 10 from by decide,
      show (tenSeven.filter (fun r => r.voted_up)).length = 7 from by decide,
      verdictFromPositivity]
    decide

/- ------------------------------------------------------------------
   C4: the fetch respects maxCount and the language filter.
   ------------------------------------------------------------------ -/

/-- Members of a filtered chunk carry the requested language tag. -/
lemma chunkOf_mem (lang : String) (d : PageData) (hl : lang ≠ "all") :
    ∀ r ∈ chunkOf lang d, jsLowerStr r.language = lang := by
  intro r hr
  unfold chunkOf at hr
  rw [if_neg hl] at hr
  simpa using (List.mem_filter.mp hr).2

/-- Any review in an accumulator produced by one advancing iteration
either was already there or carries the requested language tag. -/
lemma stepPage_mem_next (up : String → UpResult) (lang : String) (c : String)
    (acc : List Review) (hl : lang ≠ "all") (c2 : String) (acc2 : List Review)
    (h : stepPage up lang c acc = .next c2 acc2) :
    ∀ r ∈ acc2, r ∈ acc ∨ jsLowerStr r.language = lang := by
  intro r hr
  cases hU : up c with
  | httpError s => simp [stepPage, hU] at h
  | json d =>
    simp only [stepPage, hU] at h
    split_ifs at h with h1 h2 h3 h4 h5 <;>
      simp only [StepOut.next.injEq, reduceCtorEq] at h <;>
      first
      | (obtain ⟨-, h⟩ := h; subst h; exact Or.inl hr)
      | (obtain ⟨-, h⟩ := h
         subst h
         rcases List.mem_append.mp hr with hin | hin
         · exact Or.inl hin
         · exact Or.inr (chunkOf_mem lang d hl r hin))

/-- Any review in an accumulator produced by a stopping iteration either
was already there or carries the requested language tag. -/
lemma stepPage_mem_stop (up : String → UpResult) (lang : String) (c : String)
    (acc : List Review) (hl : lang ≠ "all") (acc2 : List Review)
    (h : stepPage up lang c acc = .stop acc2) :
    ∀ r ∈ acc2, r ∈ acc ∨ jsLowerStr r.language = lang := by
  intro r hr
  cases hU : up c with
  | httpError s => simp [stepPage, hU] at h
  | json d =>
    simp only [stepPage, hU] at h
    split_ifs at h with h1 h2 h3 h4 h5 <;>
      simp only [StepOut.stop.injEq, reduceCtorEq] at h <;>
      first
      | (subst h; exact Or.inl hr)
      | (subst h
         rcases List.mem_append.mp hr with hin | hin
         · exact Or.inl hin
         · exact Or.inr (chunkOf_mem lang d hl r hin))

/-- Every review in a loop result was in the initial accumulator or
carries the requested language tag. -/
lemma runLoop_ok_mem (up : String → UpResult) (lang : String) (max : ℤ)
    (hl : lang ≠ "all") :
    ∀ (fuel : Nat) (c : String) (acc res : List Review),
      runLoop up lang max fuel c acc = .ok res →
      ∀ r ∈ res, r ∈ acc ∨ jsLowerStr r.language = lang := by
  intro fuel
  induction fuel with
  | zero => intro c acc res h; simp [runLoop] at h
  | succ n ih =>
    intro c acc res h r hr
    rw [runLoop] at h
    split_ifs at h with hlt
    · cases hstep : stepPage up lang c acc with
      | fail => rw [hstep] at h; cases h
      | stop acc2 =>
        rw [hstep] at h
        cases h
        exact stepPage_mem_stop up lang c acc hl _ hstep r hr
      | next c2 acc2 =>
        rw [hstep] at h
        rcases ih c2 acc2 res h r hr with hin | hprop
        · exact stepPage_mem_next up lang c acc hl c2 acc2 hstep r hin
        · exact Or.inr hprop
    · cases h; exact Or.inl hr

/-- The final truncation keeps at most `max` elements when `max ≥ 0`. -/
lemma jsSlice_length_le {α : Type} (l : List α) (e : ℤ) (he : 0 ≤ e) :
    ((jsSlice l e).length : ℤ) ≤ e := by
  unfold jsSlice
  rw [if_neg (not_lt.mpr he)]
  calc ((l.take e.toNat).length : ℤ) ≤ (e.toNat : ℤ) := by
        exact_mod_cast (l.length_take_le e.toNat)
    _ = e := by rw [Int.toNat_of_nonneg he]

/-- C4: for every upstream, language filter and non-negative maxCount,
a successful review fetch returns at most maxCount reviews, and when the
filter is not "all" every returned review's lowercased language tag
equals the filter. -/
theorem claim_C4_fetch_contract (up : String → UpResult) (lang : String)
    (max : ℤ) (fuel : Nat) (all : List Review) (hmax : 0 ≤ max)
    (h : fetchReviews up lang max fuel = .ok all) :
    (all.length : ℤ) ≤ max ∧
    (lang ≠ "all" → ∀ r ∈ all, jsLowerStr r.language = lang) := by
  unfold fetchReviews at h
  cases hrun : runLoop up lang max fuel "*" [] with
  | err => rw [hrun] at h; cases h
  | fuelOut => rw [hrun] at h; cases h
  | ok res =>
    rw [hrun] at h
    cases h
    refine ⟨jsSlice_length_le res max hmax, fun hl r hr => ?_⟩
    have hmem : r ∈ res := by
      have := hr
      unfold jsSlice at this
      split_ifs at this <;> exact List.mem_of_mem_take this
    rcases runLoop_ok_mem up lang max hl fuel "*" [] res hrun r hmem with hin | hprop
    · cases hin
    · exact hprop

/-- A one-page upstream: the start page has one English review, every
further page is empty with a falsy cursor. -/
def upOnePage : String → UpResult := fun c =>
  if c = "*" then .json ⟨1, [⟨true, 3, "0.5", "great", "English", 120⟩], "a"⟩
  else .json ⟨1, [], ""⟩

/-- Witness for C4 on a concrete upstream and maxCount 200. -/
theorem claim_C4_witness :
    ((([⟨true, 3, "0.5", "great", "English", 120⟩] : List Review).length : ℤ) ≤ 200) ∧
    ("english" ≠ "all" → ∀ r ∈ ([⟨true, 3, "0.5", "great", "English", 120⟩] : List Review),
      jsLowerStr r.language = "english") :=
  claim_C4_fetch_contract upOnePage "english" 200 5 _ (by norm_num) (by decide)

/- ------------------------------------------------------------------
   C5: the empty-review sentinel response.
   ------------------------------------------------------------------ -/

/-- C5: whenever the review fetch completes with zero matching reviews,
the endpoint returns a normal response with count 0, an empty sample, and
the sentinel summary whose numeric fields are null, whose lists are empty
and whose verdict is "Unknown". -/
theorem claim_C5_empty_sentinel (up : String → UpResult) (gen : Nat → Option String)
    (key : String) (appId : String) (num : ℤ) (qLang : Option String) (fuel : Nat)
    (hid : appId ≠ "")
    (h : fetchReviews up (sanitizeLang qLang) (min num 1000) fuel = .ok []) :
    apiReviews up gen key (some appId) num qLang fuel =
      .ok { count := 0, appId := appId, lang := sanitizeLang qLang
          , summary := .ofSummary sentinelSummary, sample := [] } ∧
    sentinelSummary.positivity = none ∧
    sentinelSummary.playtimeAvgHrs = none ∧
    sentinelSummary.pros = [] ∧
    sentinelSummary.cons = [] ∧
    sentinelSummary.themes = [] ∧
    sentinelSummary.topKeywords = [] ∧
    sentinelSummary.verdict = "Unknown" := by
  refine ⟨?_, rfl, rfl, rfl, rfl, rfl, rfl, rfl⟩
  simp only [apiReviews, if_neg hid, h]
  rfl

/-- An upstream that reports success but never any review. -/
def upNoReviews : String → UpResult := fun _ => .json ⟨1, [], ""⟩

/-- Witness for C5 on a concrete upstream with no matching reviews. -/
theorem claim_C5_witness :
    apiReviews upNoReviews (fun _ => none) "" (some "10") 200 (some "english") 5 =
      .ok { count := 0, appId := "10", lang := sanitizeLang (some "english")
          , summary := .ofSummary sentinelSummary, sample := [] } ∧
    sentinelSummary.positivity = none ∧
    sentinelSummary.playtimeAvgHrs = none ∧
    sentinelSummary.pros = [] ∧
    sentinelSummary.cons = [] ∧
    sentinelSummary.themes = [] ∧
    sentinelSummary.topKeywords = [] ∧
    sentinelSummary.verdict = "Unknown" :=
  claim_C5_empty_sentinel upNoReviews (fun _ => none) "" "10" 200 (some "english") 5
    (by decide) (by decide)

/- ------------------------------------------------------------------
   C1: upstream HTTP failure mid-pagination (corrected: 500, no partials).
   ------------------------------------------------------------------ -/

/-- C1 (amended): a non-success HTTP response from the upstream reviews
endpoint at any point mid-pagination makes `fetchJson` throw, the
exception propagates to the route's outer catch, and the endpoint
responds with HTTP 500 "Review fetch failed." — the reviews accumulated
so far are discarded, not returned.  (Only a 200 response whose body has
`success ≠ 1` ends the loop early with partial results.) -/
theorem claim_C1_http_failure_500 (up : String → UpResult) (gen : Nat → Option String)
    (key : String) (appId : String) (num : ℤ) (qLang : Option String) (fuel : Nat)
    (hid : appId ≠ "")
    (h : fetchReviews up (sanitizeLang qLang) (min num 1000) fuel = .err) :
    apiReviews up gen key (some appId) num qLang fuel =
      .serverError "Review fetch failed." := by
  simp only [apiReviews, if_neg hid, h]

/-- An upstream whose first page succeeds with 100 English reviews and
whose second page is an HTTP 500. -/
def upFailsMid : String → UpResult := fun c =>
  if c = "*" then .json ⟨1, List.replicate 100 (⟨true, 3, "0.5", "great", "english", 120⟩ : Review), "a"⟩
  else .httpError 500

/-- Counterexample to C1 as stated: with 100 reviews accumulated and an
HTTP failure on the second page, the endpoint returns the 500 error, not
a normal response carrying the accumulated reviews. -/
theorem claim_C1_counterexample :
    errMsgOf (apiReviews upFailsMid (fun _ => none) "" (some "10") 200 (some "english") 5) =
      some "Review fetch failed." ∧
    (okPart (apiReviews upFailsMid (fun _ => none) "" (some "10") 200 (some "english") 5)).isNone = true ∧
    stepPage upFailsMid "english" "*" [] =
      .next "a" (List.replicate 100 (⟨true, 3, "0.5", "great", "english", 120⟩ : Review)) := by
  refine ⟨by decide, by decide, by decide⟩

/-- Witness for the amended C1 on the same concrete upstream. -/
theorem claim_C1_witness :
    apiReviews upFailsMid (fun _ => none) "" (some "10") 200 (some "english") 5 =
      .serverError "Review fetch failed." :=
  claim_C1_http_failure_500 upFailsMid (fun _ => none) "" "10" 200 (some "english") 5
    (by decide) (by decide)

/- ------------------------------------------------------------------
   C10: the AI outcome only ever affects the summary field.
   ------------------------------------------------------------------ -/

/-- C10: for any request whose fetched review list is non-empty, the
response fields count, appId, lang and sample are identical whether the
AI synthesis is skipped (no key), fails, or succeeds — any two runs that
differ only in the AI key and the model oracle agree on those fields;
only the summary can differ. -/
theorem claim_C10_ai_frame (up : String → UpResult) (qAppId : Option String)
    (num : ℤ) (qLang : Option String) (fuel : Nat)
    (k1 k2 : String) (g1 g2 : Nat → Option String) (all : List Review)
    (hfetch : fetchReviews up (sanitizeLang qLang) (min num 1000) fuel = .ok all)
    (hne : all ≠ []) :
    (okPart (apiReviews up g1 k1 qAppId num qLang fuel)).map (fun r => r.count) =
      (okPart (apiReviews up g2 k2 qAppId num qLang fuel)).map (fun r => r.count) ∧
    (okPart (apiReviews up g1 k1 qAppId num qLang fuel)).map (fun r => r.appId) =
      (okPart (apiReviews up g2 k2 qAppId num qLang fuel)).map (fun r => r.appId) ∧
    (okPart (apiReviews up g1 k1 qAppId num qLang fuel)).map (fun r => r.lang) =
      (okPart (apiReviews up g2 k2 qAppId num qLang fuel)).map (fun r => r.lang) ∧
    (okPart (apiReviews up g1 k1 qAppId num qLang fuel)).map (fun r => r.sample) =
      (okPart (apiReviews up g2 k2 qAppId num qLang fuel)).map (fun r => r.sample) := by
  cases qAppId with
  | none => exact ⟨rfl, rfl, rfl, rfl⟩
  | some appId =>
    by_cases hid : appId = ""
    · simp [apiReviews, okPart, hid]
    · have hemp : all.isEmpty = false := by
        cases all with
        | nil => exact absurd rfl hne
        | cons a l => rfl
      by_cases hk1 : jsTrimStr k1 = "" <;> by_cases hk2 : jsTrimStr k2 = "" <;>
        cases hr1 : runAI g1 all <;> cases hr2 : runAI g2 all <;>
        simp [apiReviews, okPart, hid, hfetch, hemp, hk1, hk2, hr1, hr2]

/-- Witness for C10: one concrete upstream, one keyless run against one
run with a key and a model oracle that succeeds with a merged object. -/
theorem claim_C10_witness :
    (okPart (apiReviews upOnePage (fun _ => none) "" (some "10") 200 (some "english") 5)).map (fun r => r.count) =
      (okPart (apiReviews upOnePage (fun i => if i = 0 then some "\x7b\"x\": 1\x7d" else some "\x7b\"positivity\": 2\x7d") "k" (some "10") 200 (some "english") 5)).map (fun r => r.count) ∧
    (okPart (apiReviews upOnePage (fun _ => none) "" (some "10") 200 (some "english") 5)).map (fun r => r.appId) =
      (okPart (apiReviews upOnePage (fun i => if i = 0 then some "\x7b\"x\": 1\x7d" else some "\x7b\"positivity\": 2\x7d") "k" (some "10") 200 (some "english") 5)).map (fun r => r.appId) ∧
    (okPart (apiReviews upOnePage (fun _ => none) "" (some "10") 200 (some "english") 5)).map (fun r => r.lang) =
      (okPart (apiReviews upOnePage (fun i => if i = 0 then some "\x7b\"x\": 1\x7d" else some "\x7b\"positivity\": 2\x7d") "k" (some "10") 200 (some "english") 5)).map (fun r => r.lang) ∧
    (okPart (apiReviews upOnePage (fun _ => none) "" (some "10") 200 (some "english") 5)).map (fun r => r.sample) =
      (okPart (apiReviews upOnePage (fun i => if i = 0 then some "\x7b\"x\": 1\x7d" else some "\x7b\"positivity\": 2\x7d") "k" (some "10") 200 (some "english") 5)).map (fun r => r.sample) :=
  claim_C10_ai_frame upOnePage (some "10") 200 (some "english") 5 "" "k"
    (fun _ => none) (fun i => if i = 0 then some "\x7b\"x\": 1\x7d" else some "\x7b\"positivity\": 2\x7d")
    [⟨true, 3, "0.5", "great", "English", 120⟩] (by decide) (by decide)

/- ------------------------------------------------------------------
   C2: the loop's stop conditions (corrected: short filtered chunks
   also stop it).
   ------------------------------------------------------------------ -/

/-- One advancing iteration of the pagination loop, as a relation on
(cursor, accumulator) states: the accumulator is still short of `max`
and the loop body neither stops nor fails. -/
def PageStep (up : String → UpResult) (lang : String) (max : ℤ)
    (s t : String × List Review) : Prop :=
  (s.2.length : ℤ) < max ∧ stepPage up lang s.1 s.2 = .next t.1 t.2

/-- The page body, if any, the loop reads at a cursor: its success flag,
raw review count and effective next cursor. -/
def pageInfoAt (up : String → UpResult) (c : String) : Option (ℤ × Nat × String) :=
  match up c with
  | .json d => some (d.success, d.reviews.length, nextCursorOf d c)
  | .httpError _ => none

/-- C2 (amended): a successful run of the pagination loop reaches, by
advancing iterations, a state where it stops, and the stop is caused by
exactly one of: (a) the accumulated count reached `max`; (b) the upstream
body reported `success ≠ 1`; (c) the cursor stalled (the upstream
returned the same cursor twice in a row); or — the condition the original
claim omits — (d) the page's language-filtered chunk was non-empty but
shorter than the page size 100, which stops the loop even when the
upstream returned a full raw page.  A page whose chunk is filtered to
empty with a fresh cursor advances the loop instead of stopping it. -/
theorem claim_C2_stop_conditions (up : String → UpResult) (lang : String) (max : ℤ) :
    (∀ (fuel : Nat) (c : String) (acc res : List Review),
       runLoop up lang max fuel c acc = .ok res →
       ∃ st : String × List Review,
         Relation.ReflTransGen (PageStep up lang max) (c, acc) st ∧
         ((max ≤ (st.2.length : ℤ) ∧ res = st.2) ∨
          ((st.2.length : ℤ) < max ∧ stepPage up lang st.1 st.2 = .stop res))) ∧
    (∀ (c : String) (acc res : List Review),
       stepPage up lang c acc = .stop res →
       ∃ d, up c = .json d ∧
         ((d.success ≠ 1 ∧ res = acc) ∨
          nextCursorOf d c = c ∨
          (chunkOf lang d ≠ [] ∧ (chunkOf lang d).length < 100 ∧
            res = acc ++ chunkOf lang d))) ∧
    (∀ (c : String) (acc : List Review) (d : PageData),
       up c = .json d → d.success = 1 → chunkOf lang d = [] →
       nextCursorOf d c ≠ c →
       stepPage up lang c acc = .next (nextCursorOf d c) acc) := by
  refine ⟨?_, ?_, ?_⟩
  · intro fuel
    induction fuel with
    | zero => intro c acc res h; simp [runLoop] at h
    | succ n ih =>
      intro c acc res h
      rw [runLoop] at h
      split_ifs at h with hlt
      · cases hstep : stepPage up lang c acc with
        | fail => rw [hstep] at h; cases h
        | stop acc2 =>
          rw [hstep] at h
          cases h
          exact ⟨(c, acc), Relation.ReflTransGen.refl, Or.inr ⟨hlt, hstep⟩⟩
        | next c2 acc2 =>
          rw [hstep] at h
          obtain ⟨st, hreach, hend⟩ := ih c2 acc2 res h
          exact ⟨st, Relation.ReflTransGen.head ⟨hlt, hstep⟩ hreach, hend⟩
      · cases h
        exact ⟨(c, acc), Relation.ReflTransGen.refl, Or.inl ⟨not_lt.mp hlt, rfl⟩⟩
  · intro c acc res h
    cases hU : up c with
    | httpError s => simp [stepPage, hU] at h
    | json d =>
      refine ⟨d, rfl, ?_⟩
      simp only [stepPage, hU] at h
      split_ifs at h with h1 h2 h3 h4 h5 <;>
        simp only [StepOut.stop.injEq, reduceCtorEq] at h
      · exact Or.inl ⟨h1, h.symm⟩
      · exact Or.inr (Or.inl h3)
      · exact Or.inr (Or.inl h4)
      · refine Or.inr (Or.inr ⟨fun hnil => h2 (by simp [hnil]), h5, h.symm⟩)
  · intro c acc d hU hs hch hnc
    simp [stepPage, hU, hs, hch, hnc]

/-- A review tagged english. -/
def engR : Review := ⟨true, 1, "0.5", "", "english", 60⟩

/-- A review tagged german (removed by the english filter). -/
def gerR : Review := ⟨false, 1, "0.5", "", "german", 60⟩

/-- An upstream that always returns a full page of 100 raw reviews, 50 of
them english, with a fresh cursor every time. -/
def up50 : String → UpResult := fun c =>
  if c = "*" then .json ⟨1, List.replicate 50 engR ++ List.replicate 50 gerR, "a"⟩
  else .json ⟨1, List.replicate 50 engR ++ List.replicate 50 gerR, "b"⟩

/-- Counterexample to C2 as stated: with maxCount 200 the loop stops
after the first page with only 50 reviews, although none of the three
claimed conditions holds there — the count 50 is below 200, the upstream
returned a full page of 100 raw reviews with a fresh cursor (both at the
stopping cursor and at the next one, so it had more data and did not
stall).  The undocumented stop cause is the filtered chunk being shorter
than 100. -/
theorem claim_C2_counterexample :
    (fetchReviews up50 "english" 200 10).okReviews.map (fun l => l.length) = some 50 ∧
    (50 : ℤ) < 200 ∧
    pageInfoAt up50 "*" = some (1, 100, "a") ∧
    "a" ≠ "*" ∧
    pageInfoAt up50 "a" = some (1, 100, "b") := by
  refine ⟨by decide, by decide, by decide, by decide, by decide⟩

/-- An upstream whose first page is entirely non-english and advances the
cursor. -/
def upAllFiltered : String → UpResult := fun c =>
  if c = "*" then .json ⟨1, [gerR], "a"⟩ else .json ⟨1, [], ""⟩

/-- Witness for C2: a page filtered to empty with a fresh cursor makes
the loop advance and continue rather than stop. -/
theorem claim_C2_witness :
    stepPage upAllFiltered "english" "*" [] = .next "a" [] :=
  (claim_C2_stop_conditions upAllFiltered "english" 200).2.2 "*" []
    ⟨1, [gerR], "a"⟩ (by decide) (by decide) (by decide) (by decide)

/- ------------------------------------------------------------------
   C8: termination under all-filtered pages (corrected: the stall guard
   fires only if the upstream actually repeats a cursor).
   ------------------------------------------------------------------ -/

/-- C8 (amended): when every upstream page succeeds and is filtered to
empty by the language filter, the pagination loop terminates provided the
induced cursor sequence reaches a fixed point — i.e. the upstream at some
point returns the same cursor twice in a row (or a falsy cursor), at
which moment the stall guard fires; `i + 2` units of fuel then suffice
and the loop returns the empty accumulation.  Without such a repetition
the stall guard never fires and the loop does not terminate (see the
counterexample). -/
theorem claim_C8_stall_termination (up : String → UpResult) (lang : String)
    (max : ℤ) (d : String → PageData) (g : String → String) (c0 : String) (i : Nat)
    (hup : ∀ c, up c = .json (d c))
    (hsucc : ∀ c, (d c).success = 1)
    (hempty : ∀ c, chunkOf lang (d c) = [])
    (hg : ∀ c, g c = nextCursorOf (d c) c)
    (hstall : g (g^[i] c0) = g^[i] c0) :
    runLoop up lang max (i + 2) c0 [] = .ok [] := by
  induction i generalizing c0 with
  | zero =>
    simp only [Function.iterate_zero_apply] at hstall
    rw [runLoop]
    split_ifs with hlt
    · have hstep : stepPage up lang c0 [] = .stop [] := by
        have := hg c0
        simp [stepPage, hup c0, hsucc c0, hempty c0, ← this, hstall]
      rw [hstep]
    · rfl
  | succ n ih =>
    by_cases hfix : g c0 = c0
    · rw [runLoop]
      split_ifs with hlt
      · have hstep : stepPage up lang c0 [] = .stop [] := by
          have := hg c0
          simp [stepPage, hup c0, hsucc c0, hempty c0, ← this, hfix]
        rw [hstep]
      · rfl
    · have hstall2 : g (g^[n] (g c0)) = g^[n] (g c0) := by
        rw [← Function.iterate_succ_apply]
        exact hstall
      have hrec := ih (g c0) hstall2
      rw [show n + 1 + 2 = (n + 2) + 1 from rfl, runLoop]
      split_ifs with hlt
      · have hstep : stepPage up lang c0 [] = .next (g c0) [] := by
          have := hg c0
          simp [stepPage, hup c0, hsucc c0, hempty c0, ← this, hfix]
        rw [hstep]
        exact hrec
      · rfl

/-- An upstream whose pages are all empty but whose cursors cycle with
period two ("a" → "b" → "a" → ...): consecutive cursors never repeat. -/
def upCycle : String → UpResult := fun c =>
  if c = "*" then .json ⟨1, [], "a"⟩
  else if c = "a" then .json ⟨1, [], "b"⟩
  else .json ⟨1, [], "a"⟩

/-- On the cycling upstream the loop never leaves fuel-out, whatever the
fuel: from "a" and "b" every iteration advances to the other cursor. -/
lemma upCycle_no_result :
    ∀ fuel : Nat, runLoop upCycle "english" 200 fuel "a" [] = .fuelOut ∧
      runLoop upCycle "english" 200 fuel "b" [] = .fuelOut := by
  intro fuel
  induction fuel with
  | zero => exact ⟨rfl, rfl⟩
  | succ n ih =>
    constructor
    · rw [runLoop, if_pos (by norm_num),
        show stepPage upCycle "english" "a" [] = .next "b" [] from by decide]
      exact ih.2
    · rw [runLoop, if_pos (by norm_num),
        show stepPage upCycle "english" "b" [] = .next "a" [] from by decide]
      exact ih.1

/-- Counterexample to C8 as stated: with every page filtered to empty but
the upstream cursors cycling "a" → "b" → "a" → ..., the stall guard never
fires (the same cursor is never returned twice in a row) and the
pagination loop runs forever. -/
theorem claim_C8_counterexample :
    ¬ loopTerminates upCycle "english" 200 "*" [] := by
  rintro ⟨fuel, hfuel⟩
  apply hfuel
  cases fuel with
  | zero => rfl
  | succ n =>
    rw [runLoop, if_pos (by norm_num),
      show stepPage upCycle "english" "*" [] = .next "a" [] from by decide]
    exact (upCycle_no_result n).1

/-- An upstream whose pages are all empty and whose cursor is the
constant "end": the second page repeats the cursor and the guard fires. -/
def upStall : String → UpResult := fun _ => .json ⟨1, [], "end"⟩

/-- Witness for the amended C8: on the constant-cursor upstream the
cursor sequence stalls after one step and the loop terminates with fuel
three, returning no reviews. -/
theorem claim_C8_witness :
    runLoop upStall "english" 200 3 "*" [] = .ok [] :=
  claim_C8_stall_termination upStall "english" 200 (fun _ => ⟨1, [], "end"⟩)
    (fun _ => "end") "*" 1 (fun _ => rfl) (fun _ => rfl) (fun _ => rfl)
    (fun _ => rfl) (by decide)

/- ------------------------------------------------------------------
   C9: positivity invariant (corrected: not enforced on the AI path).
   ------------------------------------------------------------------ -/

/-- C9 (amended): the positivity invariant holds on the heuristic path
(the ratio always lies in [0,1]) and on the empty-review sentinel path
(positivity is null); in particular every response produced without an
AI key satisfies it.  On the AI-merge path, however, the merged object
returned by the model is adopted without validation, so its positivity
field can lie outside [0,1] (see the counterexample). -/
theorem claim_C9_positivity_invariant :
    (∀ all : List Review,
       ∃ p : ℚ, (heuristicSummary all).positivity = some p ∧ 0 ≤ p ∧ p ≤ 1) ∧
    sentinelSummary.positivity = none ∧
    (∀ (up : String → UpResult) (gen : Nat → Option String) (qA : Option String)
       (num : ℤ) (qL : Option String) (fuel : Nat) (r : ReviewsOk),
       okPart (apiReviews up gen "" qA num qL fuel) = some r →
       (summaryPositivity r.summary = none ∧ r.count = 0) ∨
       ∃ p : ℚ, summaryPositivity r.summary = some p ∧ 0 ≤ p ∧ p ≤ 1) := by
  refine ⟨heuristicSummary_positivity_bounds, rfl, ?_⟩
  intro up gen qA num qL fuel r h
  cases qA with
  | none => simp [apiReviews, okPart] at h
  | some a =>
    by_cases hid : a = ""
    · simp [apiReviews, okPart, hid] at h
    · simp only [apiReviews, if_neg hid] at h
      cases hf : fetchReviews up (sanitizeLang qL) (min num 1000) fuel with
      | fuelOut => rw [hf] at h; simp [okPart] at h
      | err => rw [hf] at h; simp [okPart] at h
      | ok all =>
        rw [hf] at h
        by_cases hemp : all.isEmpty
        · simp only [hemp, if_true, okPart, Option.some.injEq] at h
          subst h
          exact Or.inl ⟨rfl, rfl⟩
        · simp only [hemp, Bool.false_eq_true, if_false,
            show jsTrimStr "" = "" from rfl, if_true, okPart, Option.some.injEq] at h
          subst h
          exact Or.inr (heuristicSummary_positivity_bounds all)

/-- A model oracle whose first batch output parses to a truthy object and
whose merge output is an object with positivity 2. -/
def genOutOfRange : Nat → Option String := fun i =>
  if i = 0 then some "\x7b\"x\": 1\x7d" else some "\x7b\"positivity\": 2\x7d"

/-- Counterexample to C9 as stated: on the AI-merge path, with a fetched
review and a key present, the endpoint adopts the merged object verbatim
and returns a summary whose positivity is 2, outside [0,1] and not null. -/
theorem claim_C9_counterexample :
    (okPart (apiReviews upOnePage genOutOfRange "k" (some "10") 200 (some "english") 5)).map
        (fun r => summaryPositivity r.summary) = some (some 2) ∧
    ¬ ((2 : ℚ) ≤ 1) :=
  ⟨by decide, by norm_num⟩

/-- Witness for the amended C9 on the sentinel path of a keyless request. -/
theorem claim_C9_witness :
    (summaryPositivity (SummaryVal.ofSummary sentinelSummary) = none ∧
       (0 : Nat) = 0) ∨
    ∃ p : ℚ, summaryPositivity (SummaryVal.ofSummary sentinelSummary) = some p ∧
      0 ≤ p ∧ p ≤ 1 :=
  claim_C9_positivity_invariant.2.2 upNoReviews (fun _ => none) (some "10") 200
    (some "english") 5 ⟨0, "10", "english", .ofSummary sentinelSummary, []⟩ (by rfl)

/- ------------------------------------------------------------------
   C6: safeJson recovers fenced JSON and signals failure with null.
   ------------------------------------------------------------------ -/

/-- A list with non-whitespace first and last characters is unchanged by
trimming. -/
lemma trimChars_cons_concat (a b : Char) (l : List Char)
    (ha : jsWs a = false) (hb : jsWs b = false) :
    trimChars (a :: (l ++ [b])) = a :: (l ++ [b]) := by
  unfold trimChars
  simp [List.dropWhile_cons, ha, hb, List.reverse_append, List.dropWhile_append,
    List.reverse_reverse]

/-- Trimming strips a single leading and trailing whitespace character
around a list delimited by non-whitespace characters. -/
lemma trimChars_ws_wrap (x y a b : Char) (l : List Char)
    (hx : jsWs x = true) (hy : jsWs y = true)
    (ha : jsWs a = false) (hb : jsWs b = false) :
    trimChars (x :: ((a :: (l ++ [b])) ++ [y])) = a :: (l ++ [b]) := by
  unfold trimChars
  simp [List.dropWhile_cons, hx, hy, ha, hb, List.reverse_append, List.dropWhile_append,
    List.reverse_reverse]

/-- A list starting with the left brace and ending with the right brace
is returned whole by the outermost-brace slice. -/
lemma braceSlice_delimited (mid : List Char) :
    braceSlice (lbraceChar :: (mid ++ [rbraceChar])) =
      lbraceChar :: (mid ++ [rbraceChar]) := by
  have hidx : idxOfChar lbraceChar (lbraceChar :: (mid ++ [rbraceChar])) = some 0 := by
    simp [idxOfChar, idxOfCharAux]
  have hrev : (lbraceChar :: (mid ++ [rbraceChar])).reverse =
      rbraceChar :: (mid.reverse ++ [lbraceChar]) := by
    simp [List.reverse_append]
  have hlast : lastIdxOfChar rbraceChar (lbraceChar :: (mid ++ [rbraceChar])) =
      some (mid.length + 1) := by
    unfold lastIdxOfChar
    rw [hrev]
    simp [idxOfChar, idxOfCharAux]
  unfold braceSlice
  rw [hidx, hlast]
  have hlen : (lbraceChar :: (mid ++ [rbraceChar])).length = mid.length + 2 := by simp
  dsimp only
  rw [if_pos (Nat.succ_pos _)]
  rw [List.drop_zero, Nat.sub_zero, show mid.length + 1 + 1 = mid.length + 2 from rfl,
    ← hlen, List.take_length]

/-- C6: `safeJson` recovers a valid JSON object from model text wrapped
in markdown code fences — for any object text (brace-delimited, parsed by
`JSON.parse` to `v`), the fenced text ```` ```json\n<obj>\n``` ```` still
parses to `v` after fence stripping and outermost-brace slicing; and for
every input whose processed text `JSON.parse` rejects, `safeJson` returns
the failure signal null (`none`) rather than letting the exception
escape. -/
theorem claim_C6_safeJson_recovery :
    (∀ (mid : List Char) (v : JVal),
       parseJson (String.mk (lbraceChar :: (mid ++ [rbraceChar]))) = some v →
       safeJson ("```json\n" ++ String.mk (lbraceChar :: (mid ++ [rbraceChar])) ++ "\n```") =
         some v) ∧
    (∀ txt : String, parseJson (slicedOf txt) = none → safeJson txt = none) := by
  constructor
  · intro mid v hv
    have hdata : ("```json\n" ++ String.mk (lbraceChar :: (mid ++ [rbraceChar])) ++ "\n```").data =
        backtickChar :: backtickChar :: backtickChar :: 'j' :: 's' :: 'o' :: 'n' :: '\n' ::
          ((lbraceChar :: (mid ++ [rbraceChar])) ++
            ('\n' :: backtickChar :: backtickChar :: backtickChar :: [])) := rfl
    have hshape : backtickChar :: backtickChar :: backtickChar :: 'j' :: 's' :: 'o' :: 'n' :: '\n' ::
          ((lbraceChar :: (mid ++ [rbraceChar])) ++
            ('\n' :: backtickChar :: backtickChar :: backtickChar :: [])) =
        backtickChar :: (((backtickChar :: backtickChar :: 'j' :: 's' :: 'o' :: 'n' :: '\n' :: []) ++
          ((lbraceChar :: (mid ++ [rbraceChar])) ++
            ('\n' :: backtickChar :: backtickChar :: []))) ++ [backtickChar]) := by
      simp
    have htrim1 : trimChars (backtickChar :: backtickChar :: backtickChar :: 'j' :: 's' :: 'o' :: 'n' :: '\n' ::
          ((lbraceChar :: (mid ++ [rbraceChar])) ++
            ('\n' :: backtickChar :: backtickChar :: backtickChar :: []))) =
        backtickChar :: backtickChar :: backtickChar :: 'j' :: 's' :: 'o' :: 'n' :: '\n' ::
          ((lbraceChar :: (mid ++ [rbraceChar])) ++
            ('\n' :: backtickChar :: backtickChar :: backtickChar :: [])) := by
      rw [hshape]
      exact trimChars_cons_concat _ _ _ (by decide) (by decide)
    have hstart : stripFenceStart (backtickChar :: backtickChar :: backtickChar :: 'j' :: 's' :: 'o' :: 'n' :: '\n' ::
          ((lbraceChar :: (mid ++ [rbraceChar])) ++
            ('\n' :: backtickChar :: backtickChar :: backtickChar :: []))) =
        '\n' :: ((lbraceChar :: (mid ++ [rbraceChar])) ++
            ('\n' :: backtickChar :: backtickChar :: backtickChar :: [])) := rfl
    have hend : stripFenceEnd ('\n' :: ((lbraceChar :: (mid ++ [rbraceChar])) ++
            ('\n' :: backtickChar :: backtickChar :: backtickChar :: []))) =
        '\n' :: ((lbraceChar :: (mid ++ [rbraceChar])) ++ ['\n']) := by
      unfold stripFenceEnd
      simp [List.reverse_append, List.reverse_reverse, List.append_assoc]
    have htrim2 : trimChars ('\n' :: ((lbraceChar :: (mid ++ [rbraceChar])) ++ ['\n'])) =
        lbraceChar :: (mid ++ [rbraceChar]) :=
      trimChars_ws_wrap '\n' '\n' _ _ _ (by decide) (by decide) (by decide) (by decide)
    show parseJson (String.mk (braceSlice (trimChars (stripFenceEnd (stripFenceStart
      (trimChars ("```json\n" ++ String.mk (lbraceChar :: (mid ++ [rbraceChar])) ++ "\n```").data)))))) = some v
    rw [hdata, htrim1, hstart, hend, htrim2, braceSlice_delimited]
    exact hv
  · intro txt h
    exact h

/-- Witness for C6: a concrete fenced object is recovered, and a
malformed input yields the `none` failure signal. -/
theorem claim_C6_witness :
    safeJson ("```json\n" ++
        String.mk (lbraceChar :: (("\"a\": true").data ++ [rbraceChar])) ++ "\n```") =
      some (.obj [("a", .bool true)]) ∧
    safeJson "hello" = none :=
  ⟨claim_C6_safeJson_recovery.1 ("\"a\": true").data (.obj [("a", .bool true)]) (by rfl),
   claim_C6_safeJson_recovery.2 "hello" (by rfl)⟩
